import Mathlib

/-!
Verification of the CodeRAG VS Code extension (chat panel, index throttle,
file-creation notifier, inline code generation).

The development shallowly embeds the two JavaScript/TypeScript sources:
`extension.ts` (the revision with the 60-second index throttle and the
status messages) and the compiled inline-generation extension
(`cleanGeneratedCode`, `COMMENT_TRIGGER`, `processedLines`).  Event
handlers become pure functions from their inputs (message, editor
environment, clock, throttle map, fetch outcomes) to the list of posted
webview messages, the list of issued HTTP calls and the updated state.
-/

namespace CodeRag

/-- JavaScript whitespace class `\s` (the code points matched by the regexes
`\s*` / `\s+` and removed by `String.prototype.trim`). -/
def isJsWs (c : Char) : Bool :=
  let n := c.toNat
  n == 9 || n == 10 || n == 11 || n == 12 || n == 13 || n == 32 ||
  n == 160 || n == 5760 || (8192 ≤ n && n ≤ 8202) || n == 8232 || n == 8233 ||
  n == 8239 || n == 8287 || n == 12288 || n == 65279

/-- JavaScript line terminators, the code points NOT matched by `.` in a regex. -/
def isJsLineTerm (c : Char) : Bool :=
  let n := c.toNat
  n == 10 || n == 13 || n == 8232 || n == 8233

/-- `String.prototype.trim` on a character list: strip `\s` from both ends. -/
def jsTrimList (l : List Char) : List Char :=
  ((l.dropWhile isJsWs).reverse.dropWhile isJsWs).reverse

/-- The three-backtick Markdown fence marker. -/
def fenceChars : List Char := "```".data

/-- The characters of the only language tag the code strips, `python`. -/
def pyTagChars : List Char := "python".data

/-- Lower-casing used to model the regex `i` flag on ASCII input. -/
def lowerList (l : List Char) : List Char := l.map Char.toLower

/-- Embedding of `code.replace(/^```(?:python)?\s*/, '')`: if the string
starts with three backticks, drop them, then drop the literal tag
`python` if present (the regex has no `i` flag, so the tag is matched
case-sensitively), then drop the maximal run of whitespace. -/
def stripLeadingFence (l : List Char) : List Char :=
  if l.take 3 = fenceChars then
    let r := l.drop 3
    let r2 := if r.take 6 = pyTagChars then r.drop 6 else r
    r2.dropWhile isJsWs
  else l

/-- Embedding of `.replace(/```$/, '')`: drop a trailing three-backtick
marker when present (`$` is end-of-string, no `m` flag). -/
def stripTrailingFence (l : List Char) : List Char :=
  if l.reverse.take 3 = fenceChars then (l.reverse.drop 3).reverse else l

/-- `cleanGeneratedCode` from `out/extension.js` on character lists. -/
def cleanList (l : List Char) : List Char :=
  jsTrimList (stripTrailingFence (stripLeadingFence l))

/-- `cleanGeneratedCode(code)`:
`code.replace(/^```(?:python)?\s*/, '').replace(/```$/, '').trim()`. -/
def cleanGeneratedCode (s : String) : String := ⟨cleanList s.data⟩

/-- The characters of the literal `generate` in `COMMENT_TRIGGER`. -/
def genChars : List Char := "generate".data

/-- Try to match `(?:#|\/\/)\s*generate\s+(.*)` (flag `i`) anchored at the
head of `l`; return the capture group on success.  `\s*` and `\s+` are
greedy and nothing after them can force backtracking (the characters of
`generate` and of the capture are unconstrained by `\s`), so maximal
whitespace runs are taken; `(.*)` matches the maximal run of
non-line-terminator characters. -/
def matchTriggerAt (l : List Char) : Option (List Char) :=
  let afterHash : Option (List Char) :=
    match l with
    | c :: rest =>
      if c = '#' then some rest
      else if c = '/' then
        match rest with
        | c2 :: rest2 => if c2 = '/' then some rest2 else none
        | [] => none
      else none
    | [] => none
  match afterHash with
  | none => none
  | some r1 =>
    let r2 := r1.dropWhile isJsWs
    if lowerList (r2.take 8) = genChars then
      let r3 := r2.drop 8
      match r3 with
      | c :: _ =>
        if isJsWs c then
          some ((r3.dropWhile isJsWs).takeWhile (fun d => !isJsLineTerm d))
        else none
      | [] => none
    else none

/-- `lineText.match(COMMENT_TRIGGER)`: leftmost match of the unanchored
regex, scanning start positions left to right. -/
def findTrigger : List Char → Option (List Char)
  | [] => none
  | l@(_ :: t) =>
    match matchTriggerAt l with
    | some cap => some cap
    | none => findTrigger t

/-- The query the inline-generation handler derives from a line:
`match[1].trim()`, demanding it be non-empty (`if (!query) continue`). -/
def triggerQuery (line : String) : Option String :=
  match findTrigger line.data with
  | none => none
  | some cap =>
    let q := jsTrimList cap
    if q = [] then none else some (String.mk q)

/-- An HTTP request issued by the extension. -/
inductive Call where
  | index (parent_root : String)
  | chat (question parent_root : String)
  deriving DecidableEq, Repr

/-- The outcome of a `fetch`: either the promise rejects with a transport
error, or it resolves to a response with a status, a status text and (for
`/chat`) the `answer` field of the parsed JSON body. -/
inductive FetchOutcome where
  | transErr (emsg : String)
  | resp (status : Nat) (statusText : String) (answer : String)
  deriving DecidableEq, Repr

/-- `res.ok`: status in the inclusive range 200–299. -/
def resOk (status : Nat) : Bool := 200 ≤ status && status ≤ 299

/-- A message posted from the extension host to the chat webview:
`{id, status}` progress updates or the final `{id, answer}`. -/
inductive Posted where
  | progress (id : Nat) (st : String)
  | answer (id : Nat) (ans : String)
  deriving DecidableEq, Repr

/-- An inbound webview message `{id, question}`. -/
structure WebMsg where
  id : Nat
  question : String
  deriving DecidableEq, Repr

/-- The relevant state of `vscode.window.activeTextEditor`'s document:
whether it is untitled and the workspace folder containing it, if any. -/
structure ActiveDoc where
  isUntitled : Bool
  folder : Option String
  deriving DecidableEq, Repr

/-- The editor environment consulted by the chat handler. -/
structure EditorEnv where
  active : Option ActiveDoc
  workspaceFolders : List String
  deriving DecidableEq, Repr

/-- Parent-root resolution of the chat handler: a non-untitled active
document yields its workspace folder's path (or `''` when it lies in no
folder, without falling back); otherwise the first open workspace folder;
otherwise `''`. -/
def resolveParent (env : EditorEnv) : String :=
  match env.active with
  | some d =>
    if !d.isUntitled then (d.folder.getD "")
    else (env.workspaceFolders.head?).getD ""
  | none => (env.workspaceFolders.head?).getD ""

/-- Pointwise update of the `lastIndexed` record. -/
def mupd (m : String → Option Nat) (k : String) (v : Nat) : String → Option Nat :=
  fun r => if r = k then some v else m r

/-- Result of one run of the chat `onDidReceiveMessage` handler. -/
structure ChatResult where
  posted : List Posted
  calls : List Call
  lastIndexed : String → Option Nat

/-- The tail of the chat handler from `postMessage({status: 'thinking'})`
on: issue the `/chat` request and post the final `{id, answer}` message,
an error text when the fetch rejects or `res.ok` is false. -/
def chatTail (msg : WebMsg) (parent : String) (li : String → Option Nat)
    (chatOut : FetchOutcome) (pre : List Posted) (cpre : List Call) : ChatResult :=
  let pre2 := pre ++ [Posted.progress msg.id "thinking"]
  let calls := cpre ++ [Call.chat msg.question parent]
  match chatOut with
  | FetchOutcome.transErr e =>
    ⟨pre2 ++ [Posted.answer msg.id ("❌ Error: " ++ e)], calls, li⟩
  | FetchOutcome.resp s st a =>
    if resOk s then ⟨pre2 ++ [Posted.answer msg.id a], calls, li⟩
    else
      ⟨pre2 ++ [Posted.answer msg.id
        ("❌ Error: Server returned " ++ toString s ++ ": " ++ st)], calls, li⟩

/-- Embedding of the chat panel's `onDidReceiveMessage` handler
(`extension.ts`, throttled revision): ignore empty questions; resolve the
parent root, warning when it is `''`; re-index when `now - last > 60000`
(an absent throttle entry reads as `0` via `|| 0`), updating the throttle
after the index fetch resolves — any status, `res.ok` is not consulted —
and aborting to the error message when it rejects; then issue the `/chat`
request and post the outcome. -/
def handleChatMessage (msg : WebMsg) (env : EditorEnv) (now : Nat)
    (li : String → Option Nat) (indexOut chatOut : FetchOutcome) : ChatResult :=
  if msg.question = "" then ⟨[], [], li⟩
  else
    let parent := resolveParent env
    if parent = "" then
      ⟨[Posted.answer msg.id "⚠️ No file or workspace detected."], [], li⟩
    else
      let last := (li parent).getD 0
      if last + 60000 < now then
        match indexOut with
        | FetchOutcome.transErr e =>
          ⟨[Posted.progress msg.id "indexing",
            Posted.answer msg.id ("❌ Error: " ++ e)], [Call.index parent], li⟩
        | FetchOutcome.resp _ _ _ =>
          chatTail msg parent (mupd li parent now) chatOut
            [Posted.progress msg.id "indexing"] [Call.index parent]
      else
        chatTail msg parent li chatOut [] []

/-- Embedding of `watcher.onDidCreate` (`extension.ts`, throttled
revision): without a containing workspace folder, do nothing; otherwise
issue the `/index` request unconditionally and, when the fetch resolves
(any status — `res.ok` is not consulted), set `lastIndexed[root] = now`;
a rejected fetch is logged and swallowed, leaving the throttle unchanged. -/
def handleFileCreate (folder : Option String) (now : Nat)
    (li : String → Option Nat) (indexOut : FetchOutcome) :
    List Call × (String → Option Nat) :=
  match folder with
  | none => ([], li)
  | some root =>
    match indexOut with
    | FetchOutcome.transErr _ => ([Call.index root], li)
    | FetchOutcome.resp _ _ _ => ([Call.index root], mupd li root now)

/-- State of the inline-generation feature: the `processedLines` set and
the trigger lines whose `chat()` request is still in flight. -/
structure IGState where
  processed : Finset String
  outstanding : List String

/-- An event of the inline-generation feature: a document change (the
change's inserted text, the text of the line at the change's start, and
the resolved parent root), or the completion of an in-flight `chat()`
request for a trigger line. -/
inductive IGEvent where
  | edit (changeText lineText root : String)
  | complete (line : String) (success : Bool)
  deriving DecidableEq, Repr

/-- `change.text.includes('\n')` — the newline test of the handler. -/
def hasNewline (t : String) : Bool := t.data.contains '\n'

/-- One transition of the inline-generation feature, mirroring the
`onDidChangeTextDocument` handler body for a single content change and
the resolution of a `chat()` request: an edit triggers only when its text
contains a newline, the line is not in `processedLines` and the line
matches `COMMENT_TRIGGER` with a non-empty trimmed query — then the line
is added to `processedLines` and one `/chat` call is issued; a failed
request deletes the line from `processedLines`, a successful one leaves
the set untouched. -/
def igStep (s : IGState) (e : IGEvent) : IGState × List Call :=
  match e with
  | IGEvent.edit ct line root =>
    if !(hasNewline ct) then (s, [])
    else if line ∈ s.processed then (s, [])
    else
      match triggerQuery line with
      | none => (s, [])
      | some q =>
        (⟨insert line s.processed, line :: s.outstanding⟩, [Call.chat q root])
  | IGEvent.complete line success =>
    if line ∈ s.outstanding then
      (⟨if success then s.processed else s.processed.erase line,
        s.outstanding.erase line⟩, [])
    else (s, [])

/-- Run a sequence of inline-generation events, collecting the calls. -/
def igRun (s : IGState) : List IGEvent → IGState × List Call
  | [] => (s, [])
  | e :: rest =>
    let p := igStep s e
    let p2 := igRun p.1 rest
    (p2.1, p.2 ++ p2.2)

/-- The initial inline-generation state: both collections empty. -/
def igInit : IGState := ⟨∅, []⟩

/-- Invariant of the inline-generation state: no line has two requests in
flight, and every in-flight line is in `processedLines`. -/
def igInv (s : IGState) : Prop :=
  s.outstanding.Nodup ∧ ∀ l ∈ s.outstanding, l ∈ s.processed

/-- Recognizer for `/chat` calls. -/
def isChatCall : Call → Bool
  | Call.chat _ _ => true
  | _ => false

/-- Recognizer for final `{id, answer}` messages. -/
def isAnswerMsg : Posted → Bool
  | Posted.answer _ _ => true
  | _ => false

/-- The text of the final answer message as a function of the `/chat`
outcome: the backend's `answer` field on `res.ok`, an error text on a
non-2xx status or a rejected fetch. -/
def chatAnswerText : FetchOutcome → String
  | FetchOutcome.transErr e => "❌ Error: " ++ e
  | FetchOutcome.resp s st a =>
    if resOk s then a
    else "❌ Error: Server returned " ++ toString s ++ ": " ++ st

lemma chatTail_calls (msg : WebMsg) (parent : String) (li : String → Option Nat)
    (co : FetchOutcome) (pre : List Posted) (cpre : List Call) :
    (chatTail msg parent li co pre cpre).calls = cpre ++ [Call.chat msg.question parent] := by
  cases co with
  | transErr e => rfl
  | resp s st a =>
    dsimp only [chatTail]
    split <;> rfl

lemma chatTail_answers (msg : WebMsg) (parent : String) (li : String → Option Nat)
    (co : FetchOutcome) (pre : List Posted) (cpre : List Call)
    (hpre : pre.filter isAnswerMsg = []) :
    (chatTail msg parent li co pre cpre).posted.filter isAnswerMsg
      = [Posted.answer msg.id (chatAnswerText co)] := by
  cases co with
  | transErr e =>
    dsimp only [chatTail, chatAnswerText]
    simp [List.filter_append, hpre, isAnswerMsg]
  | resp s st a =>
    dsimp only [chatTail, chatAnswerText]
    split <;> simp [List.filter_append, hpre, isAnswerMsg]

lemma chatTail_lastIndexed (msg : WebMsg) (parent : String) (li : String → Option Nat)
    (co : FetchOutcome) (pre : List Posted) (cpre : List Call) :
    (chatTail msg parent li co pre cpre).lastIndexed = li := by
  cases co with
  | transErr e => rfl
  | resp s st a =>
    dsimp only [chatTail]
    split <;> rfl

/-- The calls issued by one run of the chat handler, when the question is
non-empty and a parent root resolves: an `/index` call exactly when the
strict throttle predicate holds, followed by the `/chat` call unless the
index fetch rejected. -/
lemma handleChat_calls (msg : WebMsg) (env : EditorEnv) (now : Nat)
    (li : String → Option Nat) (io co : FetchOutcome)
    (hq : msg.question ≠ "") (hp : resolveParent env ≠ "") :
    (handleChatMessage msg env now li io co).calls =
      if (li (resolveParent env)).getD 0 + 60000 < now then
        match io with
        | FetchOutcome.transErr _ => [Call.index (resolveParent env)]
        | FetchOutcome.resp _ _ _ =>
          [Call.index (resolveParent env), Call.chat msg.question (resolveParent env)]
      else [Call.chat msg.question (resolveParent env)] := by
  unfold handleChatMessage
  rw [if_neg hq, if_neg hp]
  by_cases hc : (li (resolveParent env)).getD 0 + 60000 < now
  · rw [if_pos hc, if_pos hc]
    cases io with
    | transErr e => rfl
    | resp s st a => rw [chatTail_calls]; rfl
  · rw [if_neg hc, if_neg hc, chatTail_calls]; rfl

/-- C1, as stated, fails at the window boundary: with `markIndexed("/proj", 0)`
recorded and a chat submission at `t1 = 60000 = t0 + 60000`, the claim
requires the index call to be performed, but the handler (whose condition is
the strict `now - last > 60000`) issues only the `/chat` call. -/
theorem C1_counterexample :
    (handleChatMessage ⟨1, "q"⟩ ⟨none, ["/proj"]⟩ 60000
        (fun r => if r = "/proj" then some 0 else none)
        (FetchOutcome.resp 200 "OK" "") (FetchOutcome.resp 200 "OK" "ans")).calls
      = [Call.chat "q" "/proj"] := by
  decide

/-- C1 (amended): for a root with recorded timestamp `t0`, a chat
submission at time `t1` skips the index call when `t0 ≤ t1 ≤ t0 + 60000`
and performs it when `t1 > t0 + 60000`: the re-index decision is the
strict predicate `now - lastIndexed(root) > 60000`. -/
theorem C1_reindex_strictly_after_window (msg : WebMsg) (env : EditorEnv)
    (now t0 : Nat) (li : String → Option Nat) (io co : FetchOutcome)
    (hq : msg.question ≠ "") (hp : resolveParent env ≠ "")
    (h0 : li (resolveParent env) = some t0) :
    (now ≤ t0 + 60000 →
      Call.index (resolveParent env) ∉ (handleChatMessage msg env now li io co).calls) ∧
    (t0 + 60000 < now →
      Call.index (resolveParent env) ∈ (handleChatMessage msg env now li io co).calls) := by
  rw [handleChat_calls msg env now li io co hq hp, h0]
  constructor
  · intro hle
    rw [if_neg (by simpa using Nat.not_lt.mpr hle)]
    simp
  · intro hlt
    rw [if_pos (by simpa using hlt)]
    cases io <;> simp

theorem C1_reindex_strictly_after_window_witness :
    0 + 60000 < 60001 ∧
    Call.index (resolveParent ⟨none, ["/proj"]⟩) ∈
      (handleChatMessage ⟨1, "q"⟩ ⟨none, ["/proj"]⟩ 60001
        (fun r => if r = "/proj" then some 0 else none)
        (FetchOutcome.resp 200 "OK" "") (FetchOutcome.resp 200 "OK" "ans")).calls :=
  ⟨by decide,
   (C1_reindex_strictly_after_window ⟨1, "q"⟩ ⟨none, ["/proj"]⟩ 60001 0
      (fun r => if r = "/proj" then some 0 else none)
      (FetchOutcome.resp 200 "OK" "") (FetchOutcome.resp 200 "OK" "ans")
      (by decide) (by decide) (by decide)).2 (by decide)⟩

/-- C2, as stated, fails for small clock values: a root with no throttle
entry reads as timestamp `0` (`lastIndexed[parent] || 0`), so a chat
submission at `t = 60000` does not index although the claim requires the
decision to be true at every time. -/
theorem C2_counterexample :
    (handleChatMessage ⟨1, "q"⟩ ⟨none, ["/proj"]⟩ 60000 (fun _ => none)
        (FetchOutcome.resp 200 "OK" "") (FetchOutcome.resp 200 "OK" "ans")).calls
      = [Call.chat "q" "/proj"] := by
  decide

/-- C2 (amended): a root absent from the throttle map is treated as having
timestamp `0`, so a chat submission indexes it exactly when `t > 60000` —
which holds for every real clock reading, but not for `t ≤ 60000`. -/
theorem C2_unseen_root_indexes_after_60s (msg : WebMsg) (env : EditorEnv)
    (now : Nat) (li : String → Option Nat) (io co : FetchOutcome)
    (hq : msg.question ≠ "") (hp : resolveParent env ≠ "")
    (h0 : li (resolveParent env) = none) :
    (60000 < now →
      Call.index (resolveParent env) ∈ (handleChatMessage msg env now li io co).calls) ∧
    (now ≤ 60000 →
      Call.index (resolveParent env) ∉ (handleChatMessage msg env now li io co).calls) := by
  rw [handleChat_calls msg env now li io co hq hp, h0]
  constructor
  · intro hlt
    rw [if_pos (by simpa using hlt)]
    cases io <;> simp
  · intro hle
    rw [if_neg (by simpa using Nat.not_lt.mpr hle)]
    simp

theorem C2_unseen_root_indexes_after_60s_witness :
    60000 < 60001 ∧
    Call.index (resolveParent ⟨none, ["/proj"]⟩) ∈
      (handleChatMessage ⟨1, "q"⟩ ⟨none, ["/proj"]⟩ 60001 (fun _ => none)
        (FetchOutcome.resp 200 "OK" "") (FetchOutcome.resp 200 "OK" "ans")).calls :=
  ⟨by decide,
   (C2_unseen_root_indexes_after_60s ⟨1, "q"⟩ ⟨none, ["/proj"]⟩ 60001 (fun _ => none)
      (FetchOutcome.resp 200 "OK" "") (FetchOutcome.resp 200 "OK" "ans")
      (by decide) (by decide) (by decide)).1 (by decide)⟩

/-- C3, as stated, fails for non-2xx responses: the file-creation handler
never consults `res.ok`, so a `/index` response with status 500 still sets
the throttle timestamp, although the claim allows the update only on 2xx. -/
theorem C3_counterexample :
    (handleFileCreate (some "/proj") 5 (fun _ => none)
        (FetchOutcome.resp 500 "Internal Server Error" "")).2 "/proj" = some 5 ∧
    resOk 500 = false := by
  constructor <;> decide

/-- C3 (amended): every file-creation event inside a known workspace root
issues exactly one `/index` call with that root, regardless of the
throttle state; the throttle timestamp is set to the current time exactly
when the fetch resolves (any status, 2xx or not) and left unchanged when
it rejects; after a resolved call at time `now`, a chat submission at any
`t1 ≤ now + 60000` does not re-index the root. -/
theorem C3_create_always_indexes (root : String) (now : Nat)
    (li : String → Option Nat) (st : Nat) (stx b : String) :
    (handleFileCreate (some root) now li (FetchOutcome.resp st stx b)).1
        = [Call.index root] ∧
    (handleFileCreate (some root) now li (FetchOutcome.resp st stx b)).2 root
        = some now ∧
    (∀ e, (handleFileCreate (some root) now li (FetchOutcome.transErr e)).1
            = [Call.index root] ∧
          (handleFileCreate (some root) now li (FetchOutcome.transErr e)).2 = li) ∧
    (∀ (msg : WebMsg) (env : EditorEnv) (t1 : Nat) (io co : FetchOutcome),
      msg.question ≠ "" → resolveParent env = root → t1 ≤ now + 60000 →
      Call.index root ∉
        (handleChatMessage msg env t1
          ((handleFileCreate (some root) now li (FetchOutcome.resp st stx b)).2)
          io co).calls) := by
  refine ⟨rfl, by simp [handleFileCreate, mupd], fun e => ⟨rfl, rfl⟩, ?_⟩
  intro msg env t1 io co hq hpr hle
  by_cases hroot : root = ""
  · have hp : resolveParent env = "" := hpr.trans hroot
    simp only [handleChatMessage]
    rw [if_neg hq, if_pos hp]
    simp
  · have hp : resolveParent env ≠ "" := by rw [hpr]; exact hroot
    rw [handleChat_calls msg env t1 _ io co hq hp]
    have hli : (handleFileCreate (some root) now li (FetchOutcome.resp st stx b)).2
        (resolveParent env) = some now := by
      rw [hpr]; simp [handleFileCreate, mupd]
    rw [hli]
    rw [if_neg (by simpa using Nat.not_lt.mpr hle)]
    simp

theorem C3_create_always_indexes_witness :
    (handleFileCreate (some "/proj") 100 (fun _ => none)
        (FetchOutcome.resp 500 "ISE" "")).1 = [Call.index "/proj"] ∧
    Call.index "/proj" ∉
      (handleChatMessage ⟨1, "q"⟩ ⟨none, ["/proj"]⟩ 60100
        ((handleFileCreate (some "/proj") 100 (fun _ => none)
          (FetchOutcome.resp 500 "ISE" "")).2)
        (FetchOutcome.resp 200 "OK" "") (FetchOutcome.resp 200 "OK" "ans")).calls :=
  ⟨(C3_create_always_indexes "/proj" 100 (fun _ => none) 500 "ISE" "").1,
   (C3_create_always_indexes "/proj" 100 (fun _ => none) 500 "ISE" "").2.2.2
     ⟨1, "q"⟩ ⟨none, ["/proj"]⟩ 60100
     (FetchOutcome.resp 200 "OK" "") (FetchOutcome.resp 200 "OK" "ans")
     (by decide) (by decide) (by decide)⟩

/-- C8: whenever a chat submission's `/chat` call is issued, it is issued
exactly once (no automatic retry), and exactly one final `{id, answer}`
message is posted, carrying the submission's id and — on `res.ok` — the
backend's `answer` field, otherwise a textual error message. -/
theorem C8_single_chat_and_final_message (msg : WebMsg) (env : EditorEnv)
    (now : Nat) (li : String → Option Nat) (io co : FetchOutcome)
    (h : ∃ q p, Call.chat q p ∈ (handleChatMessage msg env now li io co).calls) :
    (handleChatMessage msg env now li io co).calls.filter isChatCall
        = [Call.chat msg.question (resolveParent env)] ∧
    (handleChatMessage msg env now li io co).posted.filter isAnswerMsg
        = [Posted.answer msg.id (chatAnswerText co)] := by
  obtain ⟨q, p, hm⟩ := h
  by_cases hq : msg.question = ""
  · exfalso
    simp only [handleChatMessage, if_pos hq] at hm
    simp at hm
  by_cases hp : resolveParent env = ""
  · exfalso
    simp only [handleChatMessage] at hm
    rw [if_neg hq, if_pos hp] at hm
    simp at hm
  simp only [handleChatMessage] at hm ⊢
  rw [if_neg hq, if_neg hp] at hm ⊢
  by_cases hc : (li (resolveParent env)).getD 0 + 60000 < now
  · rw [if_pos hc] at hm ⊢
    cases io with
    | transErr e =>
      exfalso
      simp at hm
    | resp s1 st1 a1 =>
      constructor
      · rw [chatTail_calls]
        simp [isChatCall]
      · rw [chatTail_answers]
        rfl
  · rw [if_neg hc] at hm ⊢
    constructor
    · rw [chatTail_calls]
      simp [isChatCall]
    · rw [chatTail_answers]
      rfl

theorem C8_single_chat_and_final_message_witness :
    (handleChatMessage ⟨1, "q"⟩ ⟨none, ["/proj"]⟩ 70000 (fun _ => none)
        (FetchOutcome.resp 200 "OK" "")
        (FetchOutcome.resp 500 "Internal Server Error" "ignored")).calls.filter isChatCall
      = [Call.chat "q" (resolveParent ⟨none, ["/proj"]⟩)] ∧
    (handleChatMessage ⟨1, "q"⟩ ⟨none, ["/proj"]⟩ 70000 (fun _ => none)
        (FetchOutcome.resp 200 "OK" "")
        (FetchOutcome.resp 500 "Internal Server Error" "ignored")).posted.filter isAnswerMsg
      = [Posted.answer 1
          (chatAnswerText (FetchOutcome.resp 500 "Internal Server Error" "ignored"))] :=
  C8_single_chat_and_final_message ⟨1, "q"⟩ ⟨none, ["/proj"]⟩ 70000 (fun _ => none)
    (FetchOutcome.resp 200 "OK" "")
    (FetchOutcome.resp 500 "Internal Server Error" "ignored")
    ⟨"q", "/proj", by decide⟩

/-- C9: a file-creation event for a file outside every open workspace
folder issues no HTTP call and leaves the throttle map unchanged. -/
theorem C9_outside_workspace_ignored (now : Nat) (li : String → Option Nat)
    (out : FetchOutcome) :
    (handleFileCreate none now li out).1 = [] ∧
    (handleFileCreate none now li out).2 = li :=
  ⟨rfl, rfl⟩

/-- C10: a panel message with a non-empty question, when no non-untitled
active editor sits in a workspace folder and no workspace folder is open,
yields exactly one `{id, answer}` warning message, no HTTP call, and an
unchanged throttle map. -/
theorem C10_no_workspace_warns (msg : WebMsg) (env : EditorEnv) (now : Nat)
    (li : String → Option Nat) (io co : FetchOutcome)
    (hq : msg.question ≠ "")
    (hact : ∀ d, env.active = some d → d.isUntitled = true ∨ d.folder = none)
    (hws : env.workspaceFolders = []) :
    (handleChatMessage msg env now li io co).posted
        = [Posted.answer msg.id "⚠️ No file or workspace detected."] ∧
    (handleChatMessage msg env now li io co).calls = [] ∧
    (handleChatMessage msg env now li io co).lastIndexed = li := by
  have hp : resolveParent env = "" := by
    unfold resolveParent
    cases hA : env.active with
    | none => rw [hws]; rfl
    | some d =>
      rcases hact d hA with h | h
      · simp [h, hws]
      · cases hU : d.isUntitled with
        | false => simp [hU, h]
        | true => simp [hU, hws]
  simp only [handleChatMessage]
  rw [if_neg hq, if_pos hp]
  exact ⟨rfl, rfl, rfl⟩

theorem C10_no_workspace_warns_witness :
    (handleChatMessage ⟨1, "q"⟩ ⟨none, []⟩ 0 (fun _ => none)
        (FetchOutcome.resp 200 "OK" "") (FetchOutcome.resp 200 "OK" "ans")).posted
      = [Posted.answer 1 "⚠️ No file or workspace detected."] ∧
    (handleChatMessage ⟨1, "q"⟩ ⟨none, []⟩ 0 (fun _ => none)
        (FetchOutcome.resp 200 "OK" "") (FetchOutcome.resp 200 "OK" "ans")).calls = [] ∧
    (handleChatMessage ⟨1, "q"⟩ ⟨none, []⟩ 0 (fun _ => none)
        (FetchOutcome.resp 200 "OK" "") (FetchOutcome.resp 200 "OK" "ans")).lastIndexed
      = (fun _ => none) :=
  C10_no_workspace_warns ⟨1, "q"⟩ ⟨none, []⟩ 0 (fun _ => none)
    (FetchOutcome.resp 200 "OK" "") (FetchOutcome.resp 200 "OK" "ans")
    (by decide) (fun d hd => Option.noConfusion hd) rfl

lemma igStep_edit_fires (s : IGState) (ct line root q : String)
    (hn : hasNewline ct = true) (hmem : line ∉ s.processed)
    (htq : triggerQuery line = some q) :
    igStep s (IGEvent.edit ct line root)
      = (⟨insert line s.processed, line :: s.outstanding⟩, [Call.chat q root]) := by
  simp only [igStep, hn, Bool.not_true, Bool.false_eq_true, if_false,
    if_neg hmem, htq]

lemma igStep_edit_skip (s : IGState) (ct line root : String)
    (hmem : line ∈ s.processed) :
    igStep s (IGEvent.edit ct line root) = (s, []) := by
  simp only [igStep, if_pos hmem]
  split <;> rfl

lemma igStep_complete_of_mem (s : IGState) (line : String) (b : Bool)
    (hout : line ∈ s.outstanding) :
    igStep s (IGEvent.complete line b)
      = (⟨if b then s.processed else s.processed.erase line,
          s.outstanding.erase line⟩, []) := by
  simp only [igStep, if_pos hout]

/-- No step except a failed completion of `line` removes `line` from
`processedLines`. -/
lemma processed_preserved_step (s : IGState) (e : IGEvent) (line : String)
    (he : e ≠ IGEvent.complete line false) (h : line ∈ s.processed) :
    line ∈ ((igStep s e).1).processed := by
  cases e with
  | edit ct line2 root =>
    simp only [igStep]
    split
    · exact h
    · split
      · exact h
      · split
        · exact h
        · exact Finset.mem_insert_of_mem h
  | complete line2 b =>
    simp only [igStep]
    split
    · cases b with
      | true => exact h
      | false =>
        have hne : line ≠ line2 := fun hl => he (by rw [hl])
        exact Finset.mem_erase.mpr ⟨hne, h⟩
    · exact h

lemma processed_preserved_run (line : String) :
    ∀ (evs : List IGEvent) (s : IGState), line ∈ s.processed →
      IGEvent.complete line false ∉ evs →
      line ∈ ((igRun s evs).1).processed := by
  intro evs
  induction evs with
  | nil => intro s h _; exact h
  | cons e rest ih =>
    intro s h hnf
    have he : e ≠ IGEvent.complete line false := fun hE => hnf (hE ▸ List.mem_cons_self e rest)
    have hrest : IGEvent.complete line false ∉ rest :=
      fun hR => hnf (List.mem_cons_of_mem e hR)
    exact ih ((igStep s e).1) (processed_preserved_step s e line he h) hrest

/-- The state invariant is preserved by every inline-generation step. -/
lemma igInv_step (s : IGState) (e : IGEvent) (h : igInv s) : igInv ((igStep s e).1) := by
  obtain ⟨hnd, hsub⟩ := h
  cases e with
  | edit ct line root =>
    by_cases hn : hasNewline ct = true
    · by_cases hmem : line ∈ s.processed
      · rw [igStep_edit_skip s ct line root hmem]
        exact ⟨hnd, hsub⟩
      · cases htq : triggerQuery line with
        | none =>
          have hstep : igStep s (IGEvent.edit ct line root) = (s, []) := by
            simp [igStep, hn, hmem, htq]
          rw [hstep]
          exact ⟨hnd, hsub⟩
        | some q =>
          rw [igStep_edit_fires s ct line root q hn hmem htq]
          refine ⟨List.nodup_cons.mpr ⟨fun hin => hmem (hsub line hin), hnd⟩, ?_⟩
          intro l hl
          rcases List.mem_cons.mp hl with hEq | hIn
          · rw [hEq]; exact Finset.mem_insert_self line s.processed
          · exact Finset.mem_insert_of_mem (hsub l hIn)
    · have hn2 : hasNewline ct = false := by
        revert hn; cases hasNewline ct <;> simp
      have hstep : igStep s (IGEvent.edit ct line root) = (s, []) := by
        simp [igStep, hn2]
      rw [hstep]
      exact ⟨hnd, hsub⟩
  | complete line b =>
    simp only [igStep]
    split
    · refine ⟨hnd.erase line, ?_⟩
      intro l hl
      have hl2 : l ∈ s.outstanding := List.mem_of_mem_erase hl
      have hne : l ≠ line := ((List.Nodup.mem_erase_iff hnd).mp hl).1
      cases b with
      | true => exact hsub l hl2
      | false => exact Finset.mem_erase.mpr ⟨hne, hsub l hl2⟩
    · exact ⟨hnd, hsub⟩

lemma igInv_run : ∀ (evs : List IGEvent) (s : IGState), igInv s → igInv ((igRun s evs).1) := by
  intro evs
  induction evs with
  | nil => intro s h; exact h
  | cons e rest ih => intro s h; exact ih ((igStep s e).1) (igInv_step s e h)

lemma igInit_inv : igInv igInit := by
  constructor
  · exact List.nodup_nil
  · intro l hl; cases hl

/-- C4: a newline-terminated edit whose line matches `COMMENT_TRIGGER`
with a non-empty trimmed description, the line not yet in
`processedLines`, adds exactly that line to the set (one new entry) and
issues exactly one `/chat` call whose question is the trimmed capture. -/
theorem C4_trigger_adds_line_and_calls_once (s : IGState) (ct line root : String)
    (cap : List Char)
    (hn : hasNewline ct = true)
    (hmem : line ∉ s.processed)
    (hcap : findTrigger line.data = some cap)
    (hq : jsTrimList cap ≠ []) :
    ((igStep s (IGEvent.edit ct line root)).1).processed = insert line s.processed ∧
    ((igStep s (IGEvent.edit ct line root)).1).processed.card = s.processed.card + 1 ∧
    (igStep s (IGEvent.edit ct line root)).2
      = [Call.chat (String.mk (jsTrimList cap)) root] := by
  have htq : triggerQuery line = some (String.mk (jsTrimList cap)) := by
    unfold triggerQuery
    rw [hcap]
    simp [hq]
  rw [igStep_edit_fires s ct line root _ hn hmem htq]
  exact ⟨rfl, Finset.card_insert_of_not_mem hmem, rfl⟩

theorem C4_trigger_adds_line_and_calls_once_witness :
    ((igStep igInit
        (IGEvent.edit "\n" "# generate a function that adds two numbers" "/proj")).1).processed
      = insert "# generate a function that adds two numbers" igInit.processed ∧
    ((igStep igInit
        (IGEvent.edit "\n" "# generate a function that adds two numbers" "/proj")).1).processed.card
      = igInit.processed.card + 1 ∧
    (igStep igInit
        (IGEvent.edit "\n" "# generate a function that adds two numbers" "/proj")).2
      = [Call.chat (String.mk (jsTrimList ("a function that adds two numbers").data)) "/proj"] :=
  C4_trigger_adds_line_and_calls_once igInit "\n"
    "# generate a function that adds two numbers" "/proj"
    ("a function that adds two numbers").data
    (by decide) (by decide) (by decide) (by decide)

/-- C5: the failed completion of a pending trigger line deletes the line
from `processedLines`, after which an identical newline-terminated edit
issues a fresh `/chat` call; a successful completion leaves
`processedLines` unchanged, and no event other than a failed completion
of that very line ever removes it. -/
theorem C5_failure_removes_success_keeps (s : IGState) (ct line root q : String)
    (hout : line ∈ s.outstanding)
    (htq : triggerQuery line = some q)
    (hn : hasNewline ct = true) :
    (line ∉ (((igStep s (IGEvent.complete line false)).1)).processed ∧
     (igStep ((igStep s (IGEvent.complete line false)).1)
        (IGEvent.edit ct line root)).2 = [Call.chat q root]) ∧
    (((igStep s (IGEvent.complete line true)).1)).processed = s.processed ∧
    (∀ e : IGEvent, e ≠ IGEvent.complete line false → line ∈ s.processed →
      line ∈ (((igStep s e).1)).processed) := by
  refine ⟨⟨?_, ?_⟩, ?_, fun e he hm => processed_preserved_step s e line he hm⟩
  · rw [igStep_complete_of_mem s line false hout]
    exact Finset.not_mem_erase line s.processed
  · rw [igStep_complete_of_mem s line false hout]
    rw [igStep_edit_fires _ ct line root q hn (Finset.not_mem_erase line s.processed) htq]
  · rw [igStep_complete_of_mem s line true hout]
    exact rfl

theorem C5_failure_removes_success_keeps_witness :
    (("# generate x" : String) ∉
        ((igStep ⟨{"# generate x"}, ["# generate x"]⟩
          (IGEvent.complete "# generate x" false)).1).processed ∧
     (igStep ((igStep ⟨{"# generate x"}, ["# generate x"]⟩
          (IGEvent.complete "# generate x" false)).1)
        (IGEvent.edit "\n" "# generate x" "/proj")).2 = [Call.chat "x" "/proj"]) ∧
    ((igStep ⟨{"# generate x"}, ["# generate x"]⟩
        (IGEvent.complete "# generate x" true)).1).processed
      = ({"# generate x"} : Finset String) :=
  ⟨(C5_failure_removes_success_keeps ⟨{"# generate x"}, ["# generate x"]⟩
      "\n" "# generate x" "/proj" "x" (by decide) (by decide) (by decide)).1,
   (C5_failure_removes_success_keeps ⟨{"# generate x"}, ["# generate x"]⟩
      "\n" "# generate x" "/proj" "x" (by decide) (by decide) (by decide)).2.1⟩

/-- C6: in every reachable inline-generation state, no line text has two
requests in flight (`outstanding` has no duplicates); and once a line is
in `processedLines`, as long as no failed completion for it occurs, it
stays there and a further edit reproducing the identical line text issues
no `/chat` call. -/
theorem C6_one_outstanding_no_retrigger (evs evs2 : List IGEvent)
    (ct line root : String)
    (hmem : line ∈ ((igRun igInit evs).1).processed)
    (hnof : IGEvent.complete line false ∉ evs2) :
    ((igRun igInit evs).1).outstanding.Nodup ∧
    line ∈ ((igRun ((igRun igInit evs).1) evs2).1).processed ∧
    (igStep ((igRun ((igRun igInit evs).1) evs2).1)
        (IGEvent.edit ct line root)).2 = [] := by
  have hpres := processed_preserved_run line evs2 ((igRun igInit evs).1) hmem hnof
  refine ⟨(igInv_run evs igInit igInit_inv).1, hpres, ?_⟩
  rw [igStep_edit_skip _ ct line root hpres]

theorem C6_one_outstanding_no_retrigger_witness :
    ((igRun igInit [IGEvent.edit "\n" "# generate x" "/proj"]).1).outstanding.Nodup ∧
    ("# generate x" : String) ∈
      ((igRun ((igRun igInit [IGEvent.edit "\n" "# generate x" "/proj"]).1)
        [IGEvent.complete "# generate x" true]).1).processed ∧
    (igStep ((igRun ((igRun igInit [IGEvent.edit "\n" "# generate x" "/proj"]).1)
        [IGEvent.complete "# generate x" true]).1)
      (IGEvent.edit "\n" "# generate x" "/proj")).2 = [] :=
  C6_one_outstanding_no_retrigger [IGEvent.edit "\n" "# generate x" "/proj"]
    [IGEvent.complete "# generate x" true] "\n" "# generate x" "/proj"
    (by decide) (by decide)

lemma take_append_full {α : Type} (l₁ l₂ : List α) (n : Nat) (h : l₁.length = n) :
    (l₁ ++ l₂).take n = l₁ := by
  subst h
  rw [List.take_append_of_le_length (Nat.le_refl _), List.take_length]

lemma drop_append_full {α : Type} (l₁ l₂ : List α) (n : Nat) (h : l₁.length = n) :
    (l₁ ++ l₂).drop n = l₂ := by
  subst h
  exact List.drop_left l₁ l₂

lemma dropWhile_dropWhile (p : Char → Bool) (l : List Char) :
    (l.dropWhile p).dropWhile p = l.dropWhile p := by
  induction l with
  | nil => rfl
  | cons a t ih =>
    by_cases h : p a
    · simp [List.dropWhile_cons, h, ih]
    · simp [List.dropWhile_cons, h]

/-- Stripping the leading fence of a `python`-tagged block: the three
backticks, the tag and the following whitespace go, leaving the body
(with its own leading whitespace gone) and the trailing fence. -/
lemma stripLeadingFence_python (body : List Char) :
    stripLeadingFence (fenceChars ++ pyTagChars ++ ('\n' :: (body ++ ('\n' :: fenceChars))))
      = (body ++ ('\n' :: fenceChars)).dropWhile isJsWs := by
  have e0 : fenceChars ++ pyTagChars ++ ('\n' :: (body ++ ('\n' :: fenceChars)))
      = fenceChars ++ (pyTagChars ++ ('\n' :: (body ++ ('\n' :: fenceChars)))) :=
    List.append_assoc fenceChars pyTagChars _
  rw [e0]
  dsimp only [stripLeadingFence]
  rw [take_append_full fenceChars _ 3 (by decide), if_pos rfl]
  rw [drop_append_full fenceChars _ 3 (by decide)]
  rw [take_append_full pyTagChars _ 6 (by decide), if_pos rfl]
  rw [drop_append_full pyTagChars _ 6 (by decide)]
  rw [List.dropWhile_cons]
  rw [if_pos (by decide : isJsWs '\n' = true)]

/-- `cleanGeneratedCode` on a `python`-fenced block recovers exactly the
trimmed body. -/
lemma cleanList_python_fenced (body : List Char) :
    cleanList (fenceChars ++ pyTagChars ++ ('\n' :: (body ++ ('\n' :: fenceChars))))
      = jsTrimList body := by
  unfold cleanList
  rw [stripLeadingFence_python]
  rw [List.dropWhile_append]
  cases hbe : (body.dropWhile isJsWs).isEmpty with
  | true =>
    rw [if_pos rfl]
    have hb : body.dropWhile isJsWs = [] := List.isEmpty_iff.mp hbe
    have h1 : ('\n' :: fenceChars).dropWhile isJsWs = fenceChars := by decide
    rw [h1]
    have h2 : stripTrailingFence fenceChars = [] := by decide
    rw [h2]
    show jsTrimList [] = jsTrimList body
    unfold jsTrimList
    rw [hb]
    rfl
  | false =>
    rw [if_neg Bool.false_ne_true]
    have hstrip : stripTrailingFence (body.dropWhile isJsWs ++ ('\n' :: fenceChars))
        = body.dropWhile isJsWs ++ ['\n'] := by
      dsimp only [stripTrailingFence]
      rw [List.reverse_append (body.dropWhile isJsWs) ('\n' :: fenceChars)]
      rw [List.reverse_cons '\n' fenceChars]
      rw [(by decide : fenceChars.reverse = fenceChars)]
      rw [List.append_assoc fenceChars ['\n'] (body.dropWhile isJsWs).reverse]
      rw [take_append_full fenceChars _ 3 (by decide), if_pos rfl]
      rw [drop_append_full fenceChars _ 3 (by decide)]
      show (('\n' :: (body.dropWhile isJsWs).reverse)).reverse = _
      rw [List.reverse_cons '\n' (body.dropWhile isJsWs).reverse]
      rw [List.reverse_reverse (body.dropWhile isJsWs)]
    rw [hstrip]
    unfold jsTrimList
    rw [List.dropWhile_append]
    rw [dropWhile_dropWhile]
    rw [if_neg (by rw [hbe]; exact Bool.false_ne_true)]
    rw [List.reverse_append (body.dropWhile isJsWs) ['\n']]
    show ((('\n' :: (body.dropWhile isJsWs).reverse)).dropWhile isJsWs).reverse = _
    rw [List.dropWhile_cons, if_pos (by decide : isJsWs '\n' = true)]

/-- C7, as stated, fails for language tags other than `python`: the
leading-fence regex is `/^```(?:python)?\s*/`, so a `javascript` tag is
not stripped — only the backticks are — and the cleaned result keeps the
tag instead of being the bare snippet. -/
theorem C7_counterexample :
    cleanGeneratedCode "```javascript\nx\n```" = "javascript\nx" := by
  decide

/-- C7 (amended): the cleaning function removes a leading fence marker
with an optional literal `python` language tag (other language tags are
not removed beyond the backticks), removes a trailing fence marker, and
trims surrounding whitespace: on every `python`-fenced block it returns
exactly the trimmed body, and the concrete example yields
`def add(a,b): return a+b`. -/
theorem C7_clean_python_fence :
    (∀ body : List Char,
      cleanList (fenceChars ++ pyTagChars ++ ('\n' :: (body ++ ('\n' :: fenceChars))))
        = jsTrimList body) ∧
    cleanGeneratedCode "```python\ndef add(a,b): return a+b\n```"
      = "def add(a,b): return a+b" :=
  ⟨cleanList_python_fenced, by decide⟩

end CodeRag
